import Mathlib

/-!
# Verification of the job_scrapper pipeline

Shallow embedding, in Lean 4, of the job-search aggregation pipeline:
the three source adapters (indeed_scraper.py, linkedin_scraper.py,
rozee_scraper.py), the relevance analyzer (llm_analyzer.py) and the
orchestrating request handler (main.py).  External effects (web pages,
browser sessions, the inference endpoint, signals) are modelled as
explicit environment parameters; unbounded `while` loops are modelled
with an explicit fuel argument, `none` meaning the loop has not
terminated within the given number of iterations.
-/

set_option maxRecDepth 10000
set_option linter.unusedVariables false

namespace JobScrapper

/-! ## Canonical job records

`RawJob` is the dictionary shape produced by every adapter
(`job_data` in indeed_scraper.py / rozee_scraper.py / linkedin_scraper.py).
`TaggedJob` is the same record after main.py adds the `source` key.
-/

structure RawJob where
  title : String
  company : String
  experience : String
  location : String
  applyLink : String
  description : String
  salary : String
  jobNature : String
  deriving Repr, DecidableEq

structure TaggedJob where
  title : String
  company : String
  experience : String
  location : String
  applyLink : String
  description : String
  salary : String
  jobNature : String
  source : String
  deriving Repr, DecidableEq

/-- main.py `dict(**job, source=...)`. -/
def tagJob (source : String) (j : RawJob) : TaggedJob :=
  { title := j.title, company := j.company, experience := j.experience,
    location := j.location, applyLink := j.applyLink,
    description := j.description, salary := j.salary,
    jobNature := j.jobNature, source := source }

/-! ## A small backtracking regex engine

`IndeedScraper.extract_experience` applies four Python regular
expressions.  Every construct they use is embedded here: single-char
classes, case-insensitive literals, greedy `?`, and greedy `*`/`+`
restricted to character classes (the only way the patterns use them).
`mres` returns the possible remainders of the input after a match, in
exactly the preference order of Python's backtracking engine (greedy
alternatives first, leftmost subexpression varying slowest).
-/

inductive Rx where
  | emp : Rx
  | cls (p : Char → Bool) : Rx
  | seq (a b : Rx) : Rx
  | opt (a : Rx) : Rx
  | starCls (p : Char → Bool) : Rx
  | plusCls (p : Char → Bool) : Rx

/-- Length of the maximal prefix run of characters satisfying `p`. -/
def runLen (p : Char → Bool) : List Char → Nat
  | [] => 0
  | c :: cs => if p c then runLen p cs + 1 else 0

/-- Remainders after consuming `k, k-1, ..., lo` characters of a
greedy class run (longest first, matching greedy `*`/`+`). -/
def starRests (cs : List Char) (lo : Nat) : Nat → List (List Char)
  | 0 => if lo = 0 then [cs] else []
  | k + 1 =>
      if lo ≤ k + 1 then cs.drop (k + 1) :: starRests cs lo k
      else []

/-- All remainders of `cs` after matching `r`, in Python's backtracking
preference order. -/
def mres : Rx → List Char → List (List Char)
  | .emp, cs => [cs]
  | .cls _, [] => []
  | .cls p, c :: cs => if p c then [cs] else []
  | .seq a b, cs => (mres a cs).flatMap (mres b)
  | .opt a, cs => mres a cs ++ [cs]
  | .starCls p, cs => starRests cs 0 (runLen p cs)
  | .plusCls p, cs => starRests cs 1 (runLen p cs)

/-- First capture, in preference order, of a pattern split as
`pre ++ (grp) ++ post`: the characters consumed by `grp` in the first
overall successful match anchored at the start of `cs`. -/
def firstCapture (pre grp post : Rx) (cs : List Char) : Option (List Char) :=
  (mres pre cs).findSome? fun r1 =>
    (mres grp r1).findSome? fun r2 =>
      if (mres post r2).isEmpty then none
      else some (r1.take (r1.length - r2.length))

/-- Model of `re.findall(...)[0]` / `re.search`: leftmost successful start
position wins. -/
def rxSearch (pre grp post : Rx) : List Char → Option (List Char)
  | [] => firstCapture pre grp post []
  | c :: cs =>
      match firstCapture pre grp post (c :: cs) with
      | some cap => some cap
      | none => rxSearch pre grp post cs

/-! Character classes and literals used by the patterns
(`re.IGNORECASE` makes literals case-insensitive; `\d`, `\s` are
unaffected). -/

def isDigitC (c : Char) : Bool := c.isDigit
def isSpaceC (c : Char) : Bool := c.isWhitespace
def isSpaceColon (c : Char) : Bool := c.isWhitespace || c == ':'
def isSpaceDash (c : Char) : Bool := c.isWhitespace || c == '-'

def chCI (c : Char) : Rx := .cls (fun x => x.toLower == c)

def litCI (s : String) : Rx :=
  s.data.foldr (fun c acc => .seq (chCI c) acc) .emp

/-- Subpattern `years?` (case-insensitive). -/
def rxYears : Rx := .seq (litCI "year") (.opt (chCI 's'))

/-- Subpattern `\d+[\+]?\s*(?:-\s*\d+)?` — the capture group shared by patterns
1, 3 and 4, and the leading part of pattern 2's group. -/
def rxNum : Rx :=
  .seq (.plusCls isDigitC)
    (.seq (.opt (.cls (fun c => c == '+')))
      (.seq (.starCls isSpaceC)
        (.opt (.seq (.cls (fun c => c == '-'))
          (.seq (.starCls isSpaceC) (.plusCls isDigitC))))))

/-- Pattern 1: `(\d+[\+]?\s*(?:-\s*\d+)?)\s*(?:years?)?\s*(?:of)?\s*experience`. -/
def pat1 : Rx × Rx × Rx :=
  (.emp, rxNum,
    .seq (.starCls isSpaceC)
      (.seq (.opt rxYears)
        (.seq (.starCls isSpaceC)
          (.seq (.opt (litCI "of"))
            (.seq (.starCls isSpaceC) (litCI "experience"))))))

/-- Pattern 2: `experience[\s\:]+(\d+[\+]?\s*(?:-\s*\d+)?\s*years?)`. -/
def pat2 : Rx × Rx × Rx :=
  (.seq (litCI "experience") (.plusCls isSpaceColon),
    .seq rxNum (.seq (.starCls isSpaceC) rxYears),
    .emp)

/-- Pattern 3: `(\d+[\+]?\s*(?:-\s*\d+)?)\s*years?[\s\-]*experience`. -/
def pat3 : Rx × Rx × Rx :=
  (.emp, rxNum,
    .seq (.starCls isSpaceC)
      (.seq rxYears
        (.seq (.starCls isSpaceDash) (litCI "experience"))))

/-- Pattern 4: `minimum[\s\:]+(\d+[\+]?\s*(?:-\s*\d+)?)\s*years?`. -/
def pat4 : Rx × Rx × Rx :=
  (.seq (litCI "minimum") (.plusCls isSpaceColon),
    rxNum,
    .seq (.starCls isSpaceC) rxYears)

/-- The ordered pattern list of `extract_experience`. -/
def experiencePatterns : List (Rx × Rx × Rx) := [pat1, pat2, pat3, pat4]

/-- First pattern (in rule order) with a match, and its first capture. -/
def firstPatternCapture (text : String) : Option (List Char) :=
  experiencePatterns.findSome? fun p => rxSearch p.1 p.2.1 p.2.2 text.data

/-- Model of `IndeedScraper.extract_experience` (indeed_scraper.py:271-285):
tries the four patterns in order; on the first one with any match
returns `f"{matches[0]} years"`, else `"Not specified"`. -/
def extract_experience (text : String) : String :=
  match firstPatternCapture text with
  | some cap => String.mk cap ++ " years"
  | none => "Not specified"

/-! ## Indeed adapter (indeed_scraper.py)

The environment gives, per result-page number (`page_num`, 0-based,
`&start={page_num * 10}` in the URL), either a page-level exception or
the parsed job cards, and, per detail-page URL, the string that
`get_job_description` returns (that helper catches every exception, so
it is total).  A card is `bad` when an exception occurs while parsing
it (caught at indeed_scraper.py:225, skipping the card); otherwise the
optional fields record which elements the selector chains found
(`none` = no selector matched, `some ""` = element present with empty
text).
-/

inductive IndeedCard where
  | bad : IndeedCard
  | card (title company location salary link : Option String) : IndeedCard

inductive IndeedPage where
  | err : IndeedPage
  | cards (cs : List IndeedCard) : IndeedPage

def indeedBaseUrl : String := "https://pk.indeed.com"

/-- Card-for-card translation of the `for job in job_cards:` loop
(indeed_scraper.py:149-227), including the `if processed_count >=
max_jobs: break` guard and the `if title and company:` emission test. -/
def indeedCards (descEnv : String → String) (mx : Nat) :
    List IndeedCard → List RawJob → List RawJob
  | [], jobs => jobs
  | c :: cs, jobs =>
      if mx ≤ jobs.length then jobs
      else
        match c with
        | .bad => indeedCards descEnv mx cs jobs
        | .card title company location salary link =>
            let fullLink :=
              match link with
              | some h => if h.startsWith "/" then indeedBaseUrl ++ h else h
              | none => "No link available"
            let description :=
              match link with
              | some _ => descEnv fullLink
              | none => "No description available"
            match title, company with
            | some t, some co =>
                if t ≠ "" ∧ co ≠ "" then
                  indeedCards descEnv mx cs (jobs ++
                    [{ title := t, company := co,
                       experience := extract_experience description,
                       location :=
                         (match location with
                          | some l => if l = "" then "Location not specified" else l
                          | none => "Location not specified"),
                       applyLink := fullLink, description := description,
                       salary := salary.getD "Not Listed",
                       jobNature := "onsite" }])
                else indeedCards descEnv mx cs jobs
            | _, _ => indeedCards descEnv mx cs jobs

/-- The `while processed_count < max_jobs and page_num < 3:` loop of
`IndeedScraper.scrape_jobs` (indeed_scraper.py:121-236), with the
one-time first-page retry (lines 142-147).  Returns the collected jobs
and the fetched page numbers in fetch order; a page-level exception
(`.err`) breaks out of the loop and the collected jobs are returned
(the `except` at line 234).  `none` = fuel exhausted. -/
def indeedLoop (env : Nat → IndeedPage) (descEnv : String → String) (mx : Nat) :
    List RawJob → Nat → Bool → List Nat → Nat → Option (List RawJob × List Nat)
  | _, _, _, _, 0 => none
  | jobs, page, retried, fetched, fuel + 1 =>
      if mx ≤ jobs.length ∨ 3 ≤ page then some (jobs, fetched)
      else
        match env page with
        | .err => some (jobs, fetched ++ [page])
        | .cards cs =>
            let fetched := fetched ++ [page]
            if page = 1 ∧ cs.isEmpty = false ∧ retried = false then
              indeedLoop env descEnv mx jobs 0 true fetched fuel
            else
              let jobs' := indeedCards descEnv mx cs jobs
              if mx ≤ jobs'.length then some (jobs', fetched)
              else indeedLoop env descEnv mx jobs' (page + 1) retried fetched fuel

structure IndeedResult where
  jobs : List RawJob
  pagesFetched : List Nat
  /-- `scrape_jobs` contains no `browser.stop()`/`quit()` on any path. -/
  browserClosed : Bool
  deriving Repr, DecidableEq

/-- Model of `IndeedScraper.scrape_jobs`: `startOk = false` models `uc.start`
raising (caught at indeed_scraper.py:242, returning `[]`). -/
def indeedScrape (env : Nat → IndeedPage) (descEnv : String → String)
    (startOk : Bool) (mx : Nat) (fuel : Nat) : Option IndeedResult :=
  if startOk = false then some ⟨[], [], false⟩
  else
    (indeedLoop env descEnv mx [] 0 false [] fuel).map fun r =>
      ⟨r.1, r.2, false⟩

/-- Model of `scrape_indeed_sync` (indeed_scraper.py:287-301): constructs the
scraper and calls `scrape_jobs(position, location)` — the `experience`
argument is accepted but never passed on.  `max_jobs` keeps its
default of 10. -/
def scrape_indeed_sync (position location experience : String)
    (env : Nat → IndeedPage) (descEnv : String → String)
    (startOk : Bool) (fuel : Nat) : Option IndeedResult :=
  indeedScrape env descEnv startOk 10 fuel

/-! ## Rozee adapter (rozee_scraper.py)

The environment gives, per page number (1-based, URL suffix `/p/{page}`),
the page outcome.  A card is:
* `failEarly` — an exception before the identity is recorded
  (title/company/location/apply-link/experience/description extraction,
  rozee_scraper.py:186-200), caught at line 230: the card is skipped and
  contributes nothing;
* `failLate` — the identity was recorded (line 203-204) but a non-
  `NoSuchElementException` exception occurred at the salary step
  (line 211), also caught at line 230: the card contributes its
  identity but no job;
* `card` — fully parsed; `salary = none` models the
  `NoSuchElementException` fallback to `"Not Listed"`.
-/

inductive RozeeCard where
  | failEarly : RozeeCard
  | failLate (title company location : String) : RozeeCard
  | card (title company location experience applyLink description : String)
      (salary : Option String) : RozeeCard

inductive RozeePage where
  /-- An exception outside the inner `try` (e.g. `driver.get`),
  caught by no handler: it propagates to the caller. -/
  | fetchError : RozeePage
  /-- `KeyboardInterrupt`: caught at rozee_scraper.py:248, the jobs
  collected so far are returned. -/
  | interrupt : RozeePage
  /-- `TimeoutException` waiting for the listings (line 244): break. -/
  | timeout : RozeePage
  | cards (cs : List RozeeCard) : RozeePage

/-- The identifier `f"{title}_{company}_{location}"` (rozee_scraper.py:203). -/
def rozeeId (title company location : String) : String :=
  title ++ "_" ++ company ++ "_" ++ location

/-- Python `set.add`. -/
def insertId (cur : List String) (id : String) : List String :=
  if cur.contains id then cur else cur ++ [id]

/-- The `for job in job_listings:` loop (rozee_scraper.py:180-232):
returns the grown job list and the page's identity set
(`current_page_jobs`). -/
def rozeeCards (mx : Nat) (prev : List String) :
    List RozeeCard → List String → List RawJob → List RawJob × List String
  | [], cur, jobs => (jobs, cur)
  | c :: cs, cur, jobs =>
      if mx ≤ jobs.length then (jobs, cur)
      else
        match c with
        | .failEarly => rozeeCards mx prev cs cur jobs
        | .failLate t co l =>
            rozeeCards mx prev cs (insertId cur (rozeeId t co l)) jobs
        | .card t co l e al d sal =>
            let id := rozeeId t co l
            let cur' := insertId cur id
            if prev.contains id then rozeeCards mx prev cs cur' jobs
            else
              rozeeCards mx prev cs cur' (jobs ++
                [{ title := t, company := co, experience := e, location := l,
                   applyLink := al, description := d,
                   salary := sal.getD "Not Listed", jobNature := "onsite" }])

structure RozeeResult where
  /-- `.error ()` = an exception propagated out of `scrape_jobs` to its
  caller (only `KeyboardInterrupt` and the listing-wait
  `TimeoutException` are caught inside the loop). -/
  outcome : Except Unit (List RawJob)
  /-- The `finally:` at rozee_scraper.py:251-254 quits the driver on
  every exit path. -/
  browserClosed : Bool
  pagesFetched : Nat
  deriving Repr

/-- The `while len(jobs) < max_jobs:` loop of `RozeeScraper.scrape_jobs`
(rozee_scraper.py:160-246) with the page-to-page duplicate detection
(line 235).  `none` = fuel exhausted (the loop has no page cap). -/
def rozeeLoop (env : Nat → RozeePage) (mx : Nat) :
    Nat → List String → List RawJob → Nat → Nat → Option RozeeResult
  | _, _, _, _, 0 => none
  | page, prev, jobs, pf, fuel + 1 =>
      if mx ≤ jobs.length then some ⟨.ok jobs, true, pf⟩
      else
        match env page with
        | .fetchError => some ⟨.error (), true, pf + 1⟩
        | .interrupt => some ⟨.ok jobs, true, pf + 1⟩
        | .timeout => some ⟨.ok jobs, true, pf + 1⟩
        | .cards cs =>
            if cs.isEmpty then some ⟨.ok jobs, true, pf + 1⟩
            else if 1 < page ∧ (rozeeCards mx prev cs [] jobs).2.all
                (fun id => prev.contains id) then
              some ⟨.ok (rozeeCards mx prev cs [] jobs).1, true, pf + 1⟩
            else
              rozeeLoop env mx (page + 1) (rozeeCards mx prev cs [] jobs).2
                (rozeeCards mx prev cs [] jobs).1 (pf + 1) fuel

/-- Model of `RozeeScraper.scrape_jobs(position, city_code, max_jobs=10)`. -/
def rozeeScrape (env : Nat → RozeePage) (mx : Nat) (fuel : Nat) :
    Option RozeeResult :=
  rozeeLoop env mx 1 [] [] 0 fuel

/-! City-code resolution for `scrape_rozee_sync` (rozee_scraper.py:258-285). -/

def pyLower (s : String) : String := s.map Char.toLower

/-- Python `str.title()` (ASCII behaviour). -/
def pyTitleAux : Bool → List Char → List Char
  | _, [] => []
  | prevAlpha, c :: cs =>
      (if c.isAlpha then (if prevAlpha then c.toLower else c.toUpper) else c) ::
        pyTitleAux c.isAlpha cs

def pyTitle (s : String) : String := String.mk (pyTitleAux false s.data)

/-- Python `dict.get` over the loaded `cities.json` table. -/
def citiesGet (cities : List (String × String)) (k : String) : Option String :=
  (cities.find? (fun kv => kv.1 = k)).map (fun kv => kv.2)

/-- Python truthiness of an optional string (`None` and `""` falsy). -/
def truthyS : Option String → Bool
  | none => false
  | some s => s ≠ ""

/-- The chain `cities.get(location) or cities.get(lower) or cities.get(title)`,
then the `if city_code is None:` default (rozee_scraper.py:267-280).
Note the `or`-chain yields its last value even when falsy, so a city
mapped to `""` does not fall back to the default. -/
def resolveCityCode (cities : List (String × String)) (location : String) : String :=
  let g1 := citiesGet cities location
  let g2 := citiesGet cities (pyLower location)
  let g3 := citiesGet cities (pyTitle location)
  let chain := if truthyS g1 then g1 else if truthyS g2 then g2 else g3
  match chain with
  | none => "1184"
  | some s => s

/-- Model of `scrape_rozee_sync` (rozee_scraper.py:258-285): resolves the city
code from `location` and calls `scrape_jobs(position, city_code)`
(default `max_jobs = 10`); the `experience` argument is accepted but
never used.  The city code only selects the search URL, whose
responses the page environment abstracts. -/
def scrape_rozee_sync (position location experience : String)
    (cities : List (String × String)) (env : Nat → RozeePage)
    (fuel : Nat) : Option RozeeResult :=
  let _cityCode := resolveCityCode cities location
  rozeeScrape env 10 fuel

/-! ## LinkedIn adapter (linkedin_scraper.py)

The `linkedin-jobs-scraper` library fires one `on_data` event per
listing; `EventData` attribute reads do not raise, so the `try` body of
`on_data` (linkedin_scraper.py:67-89) appends a record unconditionally
while fewer than `max_jobs = 10` have been processed.  There is no
title/company check.  `runFails` models `scraper.run` raising, caught
at line 131: the function then returns `[]`.
-/

structure LinkedInEvent where
  title : String
  company : String
  insights : Option String
  location : String
  link : String
  description : String
  deriving Repr, DecidableEq

/-- Python `data.insights or experience` (`None` and `""` falsy). -/
def pyOrStr (a : Option String) (b : String) : String :=
  match a with
  | some s => if s = "" then b else s
  | none => b

/-- The record built by `on_data` (linkedin_scraper.py:75-84). -/
def linkedinRecord (experience : String) (d : LinkedInEvent) : RawJob :=
  { title := d.title, company := d.company,
    experience := pyOrStr d.insights experience,
    location := d.location, applyLink := d.link,
    description := d.description, salary := "", jobNature := "onsite" }

/-- Model of `scrape_linkedin_sync` (linkedin_scraper.py:39-134). -/
def scrape_linkedin_sync (position location experience : String)
    (events : List LinkedInEvent) (runFails : Bool) : List RawJob :=
  if runFails then []
  else (events.take 10).map (linkedinRecord experience)

/-! ## Relevance analyzer (llm_analyzer.py)

One `Attempt` value describes everything observable about one loop
iteration of `OllamaAnalyzer.analyze_job` (llm_analyzer.py:146-198):

* `parsed score skills` — HTTP 200, the body had
  `message.content` with an embedded `{...}` span that `json.loads`
  accepted; `score`/`skills` are the values
  `analysis.get('relevance_score', 0)` / `analysis.get('matched_skills', [])`
  return (the defaults when the keys are absent); the function returns
  them unchanged;
* `noJson` — HTTP 200 but no JSON span / unexpected format / a parse
  exception (lines 179-184): the attempt is consumed, no sleep;
* `httpError` — non-200 status (line 186): consumed, no sleep;
* `readTimeout` — `httpx.ReadTimeout` (line 188): if attempts remain,
  sleep `retry_delay` seconds then double `retry_delay`;
* `otherError` — any other exception (line 196): consumed, no sleep.
-/

inductive Attempt where
  | parsed (score : Int) (skills : List String) : Attempt
  | noJson : Attempt
  | httpError : Attempt
  | readTimeout : Attempt
  | otherError : Attempt
  deriving Repr, DecidableEq

def Attempt.isParsed : Attempt → Bool
  | .parsed _ _ => true
  | _ => false

/-- One run of `analyze_job`'s retry loop.  Arguments: attempt index
`i`, remaining attempts (initially `max_retries = 3`), current
`retry_delay`.  Returns `((score, skills), sleeps, attemptsUsed)`
where `sleeps` lists the `asyncio.sleep` durations performed. -/
def analyzeLoop (env : Nat → Attempt) :
    Nat → Nat → Nat → (Int × List String) × List Nat × Nat
  | _, 0, _ => ((0, []), [], 0)
  | i, r + 1, delay =>
      match env i with
      | .parsed s sk => ((s, sk), [], 1)
      | .readTimeout =>
          if 0 < r then
            let rec' := analyzeLoop env (i + 1) r (delay * 2)
            (rec'.1, delay :: rec'.2.1, rec'.2.2 + 1)
          else ((0, []), [], 1)
      | _ =>
          let rec' := analyzeLoop env (i + 1) r delay
          (rec'.1, rec'.2.1, rec'.2.2 + 1)

/-- Model of `OllamaAnalyzer.analyze_job` (llm_analyzer.py:105-201):
`max_retries = 3`, `retry_delay = 5`; returns `(0, [])` after
exhausting all attempts.  It catches every exception, so it is a total
function of the attempt outcomes. -/
def analyze_job (env : Nat → Attempt) : (Int × List String) × List Nat × Nat :=
  analyzeLoop env 0 3 5

/-! ### Batch analysis -/

/-- A scored entry of `analyze_jobs_batch`: `{**job, "relevance_score":
score, "matched_skills": skills}` plus the `"error"` key added by the
defensive `except` branch of `analyze_single_job`
(llm_analyzer.py:249-258). -/
structure Scored (α : Type) where
  item : α
  score : Int
  skills : List String
  err : Option String
  deriving Repr, DecidableEq

/-- Model of `analyze_single_job` (llm_analyzer.py:220-258): the per-job outcome
is either the pair `analyze_job` returned or the message of an
exception it (hypothetically) raised. -/
def analyzeSingle {α : Type} (job : α) :
    Except String (Int × List String) → Scored α
  | .ok (s, sk) => ⟨job, s, sk, none⟩
  | .error e => ⟨job, 0, [], some e⟩

/-- The `jobs[i:i+batch_size]` chunking with `batch_size = 5`
(llm_analyzer.py:261-267). -/
def chunk5 {α : Type} : List α → List (List α)
  | [] => []
  | a :: b :: c :: d :: e :: rest => [a, b, c, d, e] :: chunk5 rest
  | l => [l]

/-- Score one batch: `asyncio.gather` preserves task order, and every
result is a dict (`analyze_single_job` returns on every path), so the
`isinstance(result, dict)` filter keeps everything. -/
def scoreBatch {α : Type} (env : Nat → Except String (Int × List String)) :
    List α → Nat → List (Scored α)
  | [], _ => []
  | j :: rest, i => analyzeSingle j (env i) :: scoreBatch env rest (i + 1)

/-- The batch loop (llm_analyzer.py:262-283): before each batch the
cooperative stop flag `self.running` is checked; when cleared the
remaining batches are dropped. -/
def batchLoop {α : Type} (env : Nat → Except String (Int × List String))
    (running : Nat → Bool) : List (List α) → Nat → Nat → List (Scored α)
  | [], _, _ => []
  | c :: cs, idx, b =>
      if running b then
        scoreBatch env c idx ++ batchLoop env running cs (idx + c.length) (b + 1)
      else []

/-- Descending relevance order used as the sort relation:
`analyzed_jobs.sort(key=lambda x: x.get('relevance_score', 0),
reverse=True)` — Python's sort is stable, which
`List.insertionSort` with this relation models exactly (equal scores
keep their original relative order). -/
def scoreGE {α : Type} (a b : Scored α) : Prop := b.score ≤ a.score

instance {α : Type} : DecidableRel (@scoreGE α) :=
  fun a b => inferInstanceAs (Decidable (b.score ≤ a.score))

instance {α : Type} : IsTotal (Scored α) scoreGE :=
  ⟨fun a b => le_total b.score a.score⟩

instance {α : Type} : IsTrans (Scored α) scoreGE :=
  ⟨fun _ _ _ h1 h2 => le_trans h2 h1⟩

/-- Model of `OllamaAnalyzer.analyze_jobs_batch` (llm_analyzer.py:203-289):
chunks the jobs into batches of 5, scores each batch (stopping at a
cleared `running` flag), then stable-sorts by relevance score
descending. -/
def analyze_jobs_batch {α : Type} (jobs : List α)
    (env : Nat → Except String (Int × List String))
    (running : Nat → Bool) : List (Scored α) :=
  List.insertionSort scoreGE (batchLoop env running (chunk5 jobs) 0 0)

/-- Model of `OllamaAnalyzer.test_connection` (llm_analyzer.py:291-317):
true iff the probe request returned status 200; any exception gives
false. -/
def test_connection (probe : Except Unit Nat) : Bool :=
  match probe with
  | .ok status => status == 200
  | .error _ => false

/-! ## The request handler (main.py `search_jobs`)

The environment fixes the outcome of the connectivity probe, the three
per-source job lists returned by `get_indeed_jobs` /
`get_linkedin_jobs` / `get_rozee_jobs` (each catches every exception
and returns `[]`, so each is a total list), the per-job analysis
outcomes and the cooperative stop flag.
-/

structure JobRequest where
  position : String
  experience : String
  salary : String
  jobNature : String
  location : String
  skills : String
  sources : List String
  deriving Repr, DecidableEq

structure JobResponse where
  job_title : String
  company : String
  experience : String
  jobNature : String
  location : String
  salary : String
  apply_link : String
  description : String
  source : String
  relevance_score : Int
  matched_skills : List String
  deriving Repr, DecidableEq

structure HTTPException where
  status_code : Nat
  detail : String
  deriving Repr, DecidableEq

structure SearchEnv where
  probe : Except Unit Nat
  indeedJobs : List RawJob
  linkedinJobs : List RawJob
  rozeeJobs : List RawJob
  analysis : Nat → Except String (Int × List String)
  running : Nat → Bool

/-- The merged list handed to the analyzer (main.py:248-268): sources
are consulted in the fixed order indeed, linkedin, rozee, each tagged
with its source identifier.  (`all_jobs.extend` is skipped for an
empty per-source list, which extends by nothing anyway.) -/
def mergeJobs (req : JobRequest) (env : SearchEnv) : List TaggedJob :=
  (if req.sources.contains "indeed" then env.indeedJobs.map (tagJob "indeed") else []) ++
  (if req.sources.contains "linkedin" then env.linkedinJobs.map (tagJob "linkedin") else []) ++
  (if req.sources.contains "rozee" then env.rozeeJobs.map (tagJob "rozee") else [])

/-- The adapters invoked, in invocation order. -/
def adaptersInvoked (req : JobRequest) : List String :=
  (if req.sources.contains "indeed" then ["indeed"] else []) ++
  (if req.sources.contains "linkedin" then ["linkedin"] else []) ++
  (if req.sources.contains "rozee" then ["rozee"] else [])

/-- The experience fix-up applied while building a `JobResponse`
(main.py:280-282). -/
def fixExperience (e : String) : String :=
  if e = "" ∨ pyLower e = "none" then "Not specified" else e

/-- main.py:284-296: one scored job to the response shape. -/
def toResponse (s : Scored TaggedJob) : JobResponse :=
  { job_title := s.item.title, company := s.item.company,
    experience := fixExperience s.item.experience,
    jobNature := s.item.jobNature, location := s.item.location,
    salary := s.item.salary, apply_link := s.item.applyLink,
    description := s.item.description, source := s.item.source,
    relevance_score := s.score, matched_skills := s.skills }

/-- The body of the `try:` in `search_jobs` (main.py:230-324).  When
`test_connection` fails it raises `HTTPException(503, ...)` *before
any source adapter is invoked* (main.py:242-246). -/
def searchJobsBody (req : JobRequest) (env : SearchEnv) :
    Except HTTPException (List JobResponse) × List String :=
  if test_connection env.probe = false then
    (.error ⟨503, "Cannot connect to Ollama API. Please check if the service is running."⟩, [])
  else
    let allJobs := mergeJobs req env
    let analyzed := analyze_jobs_batch allJobs env.analysis env.running
    (.ok (analyzed.map toResponse), adaptersInvoked req)

/-- Python `str(e)` of a (fastapi/starlette) `HTTPException`:
`f"{status_code}: {detail}"`. -/
def excStr (e : HTTPException) : String :=
  Nat.repr e.status_code ++ ": " ++ e.detail

/-- Model of `search_jobs` (main.py:217-328).  `HTTPException` subclasses
`Exception`, so the `except Exception as e:` at main.py:326 catches the
503 raised inside the `try` block and re-raises it as
`HTTPException(status_code=500, detail=str(e))`. -/
def search_jobs (req : JobRequest) (env : SearchEnv) :
    Except HTTPException (List JobResponse) × List String :=
  match searchJobsBody req env with
  | (.ok v, tr) => (.ok v, tr)
  | (.error e, tr) => (.error ⟨500, excStr e⟩, tr)

/-! ## Theorems -/

/-! ### C10: the `experience` argument of the sync entry points -/

/-- C10 (confirmed): for the indeed and rozee adapters the
`experience` argument of `scrape_indeed_sync` / `scrape_rozee_sync` has
no effect on the output — two runs differing only in `experience`,
against identical external site responses, return identical results. -/
theorem c10_experience_argument_unused :
    ∀ (position location exp1 exp2 : String) (env : Nat → IndeedPage)
      (descEnv : String → String) (startOk : Bool) (fuel : Nat)
      (cities : List (String × String)) (renv : Nat → RozeePage),
      scrape_indeed_sync position location exp1 env descEnv startOk fuel =
        scrape_indeed_sync position location exp2 env descEnv startOk fuel ∧
      scrape_rozee_sync position location exp1 cities renv fuel =
        scrape_rozee_sync position location exp2 cities renv fuel :=
  fun _ _ _ _ _ _ _ _ _ _ => ⟨rfl, rfl⟩

/-! ### C1: the pre-flight connectivity gate -/

/-- C1 (code_bug): when the pre-flight probe fails, `search_jobs` is
rejected before any source adapter is invoked (the invoked-adapter
trace is empty), but the caller receives status 500, not 503: the
`HTTPException(503, ...)` raised at main.py:243 is itself an
`Exception`, so the blanket `except Exception` at main.py:326 catches
it and re-raises it as `HTTPException(500, str(e))`. -/
theorem c1_preflight_rejected_as_500 :
    (∀ (req : JobRequest) (ij lj rj : List RawJob)
       (an : Nat → Except String (Int × List String)) (run : Nat → Bool),
      search_jobs req ⟨.error (), ij, lj, rj, an, run⟩ =
        (.error ⟨500, "503: Cannot connect to Ollama API. Please check if the service is running."⟩, [])) ∧
    search_jobs
        ⟨"Software Engineer", "2 years", "70,000 PKR", "onsite",
          "Islamabad", "python", ["indeed", "linkedin", "rozee"]⟩
        ⟨.ok 404, [], [], [], fun _ => .error "", fun _ => true⟩ =
      (.error ⟨500, "503: Cannot connect to Ollama API. Please check if the service is running."⟩, []) ∧
    (500 : Nat) ≠ 503 :=
  ⟨fun _ _ _ _ _ _ => rfl, rfl, by decide⟩

/-! ### C6: `extract_experience` -/

/-- C6 counterexample: on the spec's own example the first pattern's
capture group `(\d+[\+]?\s*(?:-\s*\d+)?)` greedily consumes the space
after `5+` (its trailing `\s*` lies inside the parentheses), so
`extract_experience` returns `"5+  years"` — two spaces — not
`"5+ years"`. -/
theorem c6_counterexample :
    extract_experience "5+ years of experience in backend" = "5+  years" ∧
    "5+  years" ≠ "5+ years" :=
  ⟨rfl, by decide⟩

/-- C6 (corrected): `extract_experience` returns the first matching
pattern's first capture followed by `" years"` and `"Not specified"`
when no pattern matches, case-insensitively — but the capture is the
raw matched span, which can retain whitespace consumed inside the
group, so the example yields `"5+  years"` (double space) rather than
`"5+ years"`. -/
theorem c6_extract_experience :
    extract_experience "5+ years of experience in backend" = "5+  years" ∧
    extract_experience "no requirement mentioned" = "Not specified" ∧
    extract_experience "5+ YEARS OF EXPERIENCE in backend" = "5+  years" ∧
    (∀ text : String, firstPatternCapture text = none →
      extract_experience text = "Not specified") ∧
    (∀ (text : String) (cap : List Char), firstPatternCapture text = some cap →
      extract_experience text = String.mk cap ++ " years") := by
  refine ⟨rfl, rfl, rfl, ?_, ?_⟩
  · intro text h
    simp [extract_experience, h]
  · intro text cap h
    simp [extract_experience, h]

/-- C6 witness: the hypotheses of the general parts of
`c6_extract_experience` hold at concrete inputs. -/
theorem c6_extract_experience_witness :
    extract_experience "no requirement mentioned" = "Not specified" ∧
    extract_experience "minimum 2 years" = "2  years" :=
  ⟨c6_extract_experience.2.2.2.1 "no requirement mentioned" rfl,
   c6_extract_experience.2.2.2.2 "minimum 2 years" ['2', ' '] rfl⟩

/-! ### C3 and C4: the analyzer's retry loop -/

/-- An environment determined by its first three attempts — all
`analyze_job` ever consults. -/
def env3 (a0 a1 a2 : Attempt) : Nat → Attempt :=
  fun i => if i = 0 then a0 else if i = 1 then a1 else a2

/-- C3 counterexample: `analyze_job` returns
`analysis.get('relevance_score', 0)` unclamped (llm_analyzer.py:175-178),
so a parsed response carrying `{"relevance_score": 150}` yields a score
outside `[0, 100]`. -/
theorem c3_counterexample :
    (analyze_job (fun _ => .parsed 150 [])).1 = (150, []) ∧
    ¬((150 : Int) ≤ 100) :=
  ⟨rfl, by decide⟩

/-- C3 (corrected): `analyze_job` never raises (every branch of the
loop catches its exception) and returns `(0, [])` after exhausting all
three attempts without a successful parse; but on a successful parse
the score is passed through unclamped — nothing restricts it to
`[0, 100]`. -/
theorem c3_analyze_job_total :
    (∀ env : Nat → Attempt, (∀ i, i < 3 → (env i).isParsed = false) →
      (analyze_job env).1 = (0, [])) ∧
    (∀ (env : Nat → Attempt) (i : Nat) (s : Int) (sk : List String),
      i < 3 → env i = .parsed s sk →
      (∀ j, j < i → (env j).isParsed = false) →
      (analyze_job env).1 = (s, sk)) := by
  constructor
  · intro env h
    have h0 := h 0 (by omega)
    have h1 := h 1 (by omega)
    have h2 := h 2 (by omega)
    cases e0 : env 0 <;> rw [e0] at h0 <;>
      cases e1 : env 1 <;> rw [e1] at h1 <;>
      cases e2 : env 2 <;> rw [e2] at h2 <;>
      simp [Attempt.isParsed] at h0 h1 h2 ⊢ <;>
      simp [analyze_job, analyzeLoop, e0, e1, e2]
  · intro env i s sk hi hp hprev
    interval_cases i
    · simp [analyze_job, analyzeLoop, hp]
    · have h0 := hprev 0 (by omega)
      cases e0 : env 0 <;> rw [e0] at h0 <;>
        simp [Attempt.isParsed] at h0 <;>
        simp [analyze_job, analyzeLoop, e0, hp]
    · have h0 := hprev 0 (by omega)
      have h1 := hprev 1 (by omega)
      cases e0 : env 0 <;> rw [e0] at h0 <;>
        cases e1 : env 1 <;> rw [e1] at h1 <;>
        simp [Attempt.isParsed] at h0 h1 <;>
        simp [analyze_job, analyzeLoop, e0, e1, hp]

/-- C3 witness: the hypotheses of `c3_analyze_job_total` discharged at
concrete environments. -/
theorem c3_analyze_job_total_witness :
    (analyze_job (fun _ => .httpError)).1 = (0, []) ∧
    (analyze_job (env3 .readTimeout .noJson (.parsed 42 ["sql"]))).1 = (42, ["sql"]) :=
  ⟨c3_analyze_job_total.1 (fun _ => .httpError) (fun i _ => rfl),
   c3_analyze_job_total.2 (env3 .readTimeout .noJson (.parsed 42 ["sql"])) 2 42 ["sql"]
     (by omega) rfl
     (fun j hj => by interval_cases j <;> rfl)⟩

/-- The number of sleeping timeouts: a `readTimeout` sleeps only on
attempts 0 and 1 (`attempt < max_retries - 1`), and only attempts
before the first successful parse execute. -/
def timeoutSleepCount (a0 a1 : Attempt) : Nat :=
  if a0.isParsed then 0
  else (if a0 = .readTimeout then 1 else 0) +
    (if a1.isParsed then 0 else if a1 = .readTimeout then 1 else 0)

/-- C4 (confirmed): `analyze_job` makes at most 3 attempts; the sleeps
it performs are exactly `[5, 10].take k` where `k` counts the
read-timeouts among the executed non-final attempts — so only a
read-timeout with attempts remaining sleeps, the delay starts at 5 and
doubles after each sleeping timeout (5 → 10 → 20 as the variable's
trajectory), and every other failure consumes an attempt with no sleep
and no change to the delay.  The third conjunct is the spec's scenario:
two timeouts then a success returns the third attempt's parsed values
after sleeps of 5 and 10 seconds. -/
theorem c4_retry_backoff :
    (∀ env : Nat → Attempt,
      (analyze_job env).2.2 ≤ 3 ∧
      (analyze_job env).2.1 = [5, 10].take (timeoutSleepCount (env 0) (env 1))) ∧
    analyze_job (env3 .readTimeout .readTimeout (.parsed 88 ["python"])) =
      ((88, ["python"]), [5, 10], 3) := by
  constructor
  · intro env
    cases e0 : env 0 <;> cases e1 : env 1 <;> cases e2 : env 2 <;>
      simp [analyze_job, analyzeLoop, timeoutSleepCount, Attempt.isParsed,
        e0, e1, e2]
  · rfl

/-! ### C2: non-empty title and company at the adapter boundary -/

lemma indeedCards_title_company (descEnv : String → String) (mx : Nat) :
    ∀ (cs : List IndeedCard) (jobs : List RawJob),
      (∀ j ∈ jobs, j.title ≠ "" ∧ j.company ≠ "") →
      ∀ j ∈ indeedCards descEnv mx cs jobs, j.title ≠ "" ∧ j.company ≠ "" := by
  intro cs
  induction cs with
  | nil => intro jobs h; simpa [indeedCards] using h
  | cons c rest ih =>
      intro jobs h
      simp only [indeedCards]
      split
      · exact h
      · cases c with
        | bad => exact ih jobs h
        | card title company location salary link =>
            cases title with
            | none => exact ih jobs h
            | some t =>
                cases company with
                | none => exact ih jobs h
                | some co =>
                    dsimp only
                    split
                    · rename_i hne
                      refine ih _ ?_
                      intro j hj
                      rcases List.mem_append.mp hj with hj | hj
                      · exact h j hj
                      · simp only [List.mem_singleton] at hj
                        subst hj
                        exact hne
                    · exact ih jobs h

lemma indeedLoop_title_company (env : Nat → IndeedPage)
    (descEnv : String → String) (mx : Nat) :
    ∀ (fuel : Nat) (jobs : List RawJob) (page : Nat) (retried : Bool)
      (fetched : List Nat) (jobs' : List RawJob) (f' : List Nat),
      (∀ j ∈ jobs, j.title ≠ "" ∧ j.company ≠ "") →
      indeedLoop env descEnv mx jobs page retried fetched fuel = some (jobs', f') →
      ∀ j ∈ jobs', j.title ≠ "" ∧ j.company ≠ "" := by
  intro fuel
  induction fuel with
  | zero => intro _ _ _ _ _ _ _ h; simp [indeedLoop] at h
  | succ n ih =>
      intro jobs page retried fetched jobs' f' hj hl
      rw [indeedLoop] at hl
      split at hl
      · cases hl; exact hj
      · split at hl
        · cases hl; exact hj
        · dsimp only at hl
          split at hl
          · exact ih _ _ _ _ _ _ hj hl
          · split at hl
            · cases hl
              exact indeedCards_title_company descEnv mx _ jobs hj
            · exact ih _ _ _ _ _ _
                (indeedCards_title_company descEnv mx _ jobs hj) hl

/-- C2 counterexample: the linkedin adapter performs no title/company
check, so a listing whose title text is empty is emitted and (tagged
with its source) enters the canonical merged set handed to the
analyzer. -/
theorem c2_counterexample :
    (mergeJobs
        ⟨"Software Engineer", "2 years", "70,000 PKR", "onsite", "Karachi",
          "python", ["linkedin"]⟩
        ⟨.ok 200, [],
          scrape_linkedin_sync "Software Engineer" "Karachi" "2 years"
            [⟨"", "Acme Corp", some "2 years exp", "Karachi",
              "https://x.example/1", "desc"⟩] false,
          [], fun _ => .ok (50, []), fun _ => true⟩).map
      (fun j => (j.title, j.company, j.source)) =
    [("", "Acme Corp", "linkedin")] := rfl

/-- C2 (corrected): only the indeed adapter enforces the invariant —
`if title and company:` (indeed_scraper.py:205) drops any card whose
title or company is missing or empty, so every job it emits has
non-empty title and company.  The rozee adapter drops a card only when
the title/company *element lookup raises* (a present element with
empty text is emitted as an empty string), and the linkedin adapter
emits every event unconditionally, so records with empty title or
company can enter the canonical set from those two sources. -/
theorem c2_nonempty_title_company :
    (∀ (env : Nat → IndeedPage) (descEnv : String → String) (startOk : Bool)
       (mx fuel : Nat) (r : IndeedResult),
      indeedScrape env descEnv startOk mx fuel = some r →
      ∀ j ∈ r.jobs, j.title ≠ "" ∧ j.company ≠ "") ∧
    (∀ (position location experience : String) (d : LinkedInEvent),
      scrape_linkedin_sync position location experience [d] false =
        [linkedinRecord experience d]) := by
  constructor
  · intro env descEnv startOk mx fuel r hr
    rw [indeedScrape] at hr
    split at hr
    · cases hr; intro j hj; simp at hj
    · rw [Option.map_eq_some'] at hr
      obtain ⟨⟨jobs', f'⟩, hl, hre⟩ := hr
      subst hre
      exact indeedLoop_title_company env descEnv mx fuel [] 0 false [] jobs' f'
        (by intro j hj; simp at hj) hl
  · intro position location experience d
    rfl

/-- A concrete well-formed record used in witnesses. -/
def devJob : RawJob :=
  { title := "Dev", company := "Beta", experience := "Not specified",
    location := "Lahore", applyLink := "No link available",
    description := "No description available",
    salary := "Not Listed", jobNature := "onsite" }

/-- C2 witness: the hypotheses of `c2_nonempty_title_company`
discharged at a concrete environment: a page whose first card has an
empty title and whose second card is complete. -/
theorem c2_nonempty_title_company_witness :
    indeedScrape
        (fun _ => .cards
          [.card (some "") (some "Acme") (some "Karachi") none none,
           .card (some "Dev") (some "Beta") (some "Lahore") none none])
        (fun _ => "") true 10 9 =
      some ⟨[devJob, devJob, devJob, devJob], [0, 1, 0, 1, 2], false⟩ ∧
    (devJob.title ≠ "" ∧ devJob.company ≠ "") := by
  constructor
  · rfl
  · have h := c2_nonempty_title_company.1
      (fun _ => .cards
        [.card (some "") (some "Acme") (some "Karachi") none none,
         .card (some "Dev") (some "Beta") (some "Lahore") none none])
      (fun _ => "") true 10 9
      ⟨[devJob, devJob, devJob, devJob], [0, 1, 0, 1, 2], false⟩ rfl
    exact h devJob (by simp)

/-! ### C7: rozee page-to-page duplicate detection -/

lemma insertId_mem (cur : List String) (id x : String) :
    x ∈ insertId cur id ↔ x ∈ cur ∨ x = id := by
  rw [insertId]
  split
  · rename_i h
    constructor
    · exact Or.inl
    · rintro (hx | hx)
      · exact hx
      · subst hx; simpa using h
  · simp

/-! Step equations for `rozeeCards`, one per card constructor (all
definitional). -/

lemma rozeeCards_nil (mx : Nat) (prev cur : List String) (jobs : List RawJob) :
    rozeeCards mx prev [] cur jobs = (jobs, cur) := rfl

lemma rozeeCards_failEarly (mx : Nat) (prev cur : List String)
    (rest : List RozeeCard) (jobs : List RawJob) :
    rozeeCards mx prev (.failEarly :: rest) cur jobs =
      if mx ≤ jobs.length then (jobs, cur)
      else rozeeCards mx prev rest cur jobs := rfl

lemma rozeeCards_failLate (mx : Nat) (prev cur : List String)
    (t co l : String) (rest : List RozeeCard) (jobs : List RawJob) :
    rozeeCards mx prev (.failLate t co l :: rest) cur jobs =
      if mx ≤ jobs.length then (jobs, cur)
      else rozeeCards mx prev rest (insertId cur (rozeeId t co l)) jobs := rfl

lemma rozeeCards_card (mx : Nat) (prev cur : List String)
    (t co l e al d : String) (sal : Option String)
    (rest : List RozeeCard) (jobs : List RawJob) :
    rozeeCards mx prev (.card t co l e al d sal :: rest) cur jobs =
      if mx ≤ jobs.length then (jobs, cur)
      else if prev.contains (rozeeId t co l) then
        rozeeCards mx prev rest (insertId cur (rozeeId t co l)) jobs
      else
        rozeeCards mx prev rest (insertId cur (rozeeId t co l)) (jobs ++
          [{ title := t, company := co, experience := e, location := l,
             applyLink := al, description := d,
             salary := sal.getD "Not Listed", jobNature := "onsite" }]) := rfl

lemma rozeeCards_cur_mono (mx : Nat) (prev : List String) :
    ∀ (cs : List RozeeCard) (cur : List String) (jobs : List RawJob),
      ∀ x ∈ cur, x ∈ (rozeeCards mx prev cs cur jobs).2 := by
  intro cs
  induction cs with
  | nil => intro cur jobs x hx; simpa [rozeeCards_nil] using hx
  | cons c rest ih =>
      intro cur jobs x hx
      cases c with
      | failEarly =>
          rw [rozeeCards_failEarly]
          split
          · exact hx
          · exact ih cur jobs x hx
      | failLate t co l =>
          rw [rozeeCards_failLate]
          split
          · exact hx
          · exact ih _ jobs x ((insertId_mem _ _ _).mpr (Or.inl hx))
      | card t co l e al d sal =>
          rw [rozeeCards_card]
          split
          · exact hx
          · split
            · exact ih _ jobs x ((insertId_mem _ _ _).mpr (Or.inl hx))
            · exact ih _ _ x ((insertId_mem _ _ _).mpr (Or.inl hx))

lemma rozeeCards_no_new_of_subset (mx : Nat) (prev : List String) :
    ∀ (cs : List RozeeCard) (cur : List String) (jobs : List RawJob),
      (∀ id ∈ (rozeeCards mx prev cs cur jobs).2, prev.contains id = true) →
      (rozeeCards mx prev cs cur jobs).1 = jobs := by
  intro cs
  induction cs with
  | nil => intro cur jobs _; rfl
  | cons c rest ih =>
      intro cur jobs h
      by_cases hmx : mx ≤ jobs.length
      · cases c with
        | failEarly => rw [rozeeCards_failEarly, if_pos hmx]
        | failLate t co l => rw [rozeeCards_failLate, if_pos hmx]
        | card t co l e al d sal => rw [rozeeCards_card, if_pos hmx]
      · cases c with
        | failEarly =>
            rw [rozeeCards_failEarly, if_neg hmx] at h ⊢
            exact ih cur jobs h
        | failLate t co l =>
            rw [rozeeCards_failLate, if_neg hmx] at h ⊢
            exact ih _ jobs h
        | card t co l e al d sal =>
            rw [rozeeCards_card, if_neg hmx] at h ⊢
            by_cases hmem : prev.contains (rozeeId t co l)
            · rw [if_pos hmem] at h ⊢
              exact ih _ jobs h
            · exfalso
              apply hmem
              rw [if_neg hmem] at h
              exact h _ (rozeeCards_cur_mono mx prev rest _ _ _
                ((insertId_mem _ _ _).mpr (Or.inr rfl)))

lemma rozeeCards_emitted_fresh (mx : Nat) (prev : List String) :
    ∀ (cs : List RozeeCard) (cur : List String) (jobs : List RawJob),
      ∀ j ∈ (rozeeCards mx prev cs cur jobs).1,
        j ∈ jobs ∨ prev.contains (rozeeId j.title j.company j.location) = false := by
  intro cs
  induction cs with
  | nil => intro cur jobs j hj; exact Or.inl hj
  | cons c rest ih =>
      intro cur jobs j hj
      by_cases hmx : mx ≤ jobs.length
      · cases c with
        | failEarly =>
            rw [rozeeCards_failEarly, if_pos hmx] at hj
            exact Or.inl hj
        | failLate t co l =>
            rw [rozeeCards_failLate, if_pos hmx] at hj
            exact Or.inl hj
        | card t co l e al d sal =>
            rw [rozeeCards_card, if_pos hmx] at hj
            exact Or.inl hj
      · cases c with
        | failEarly =>
            rw [rozeeCards_failEarly, if_neg hmx] at hj
            exact ih cur jobs j hj
        | failLate t co l =>
            rw [rozeeCards_failLate, if_neg hmx] at hj
            exact ih _ jobs j hj
        | card t co l e al d sal =>
            rw [rozeeCards_card, if_neg hmx] at hj
            by_cases hmem : prev.contains (rozeeId t co l)
            · rw [if_pos hmem] at hj
              exact ih _ jobs j hj
            · rw [if_neg hmem] at hj
              rcases ih _ _ j hj with hin | hfresh
              · rcases List.mem_append.mp hin with hin | hin
                · exact Or.inl hin
                · simp only [List.mem_singleton] at hin
                  subst hin
                  right
                  simpa using hmem
              · exact Or.inr hfresh

/-- C7 (confirmed): in the rozee adapter, when the identity set
computed for the current page (page ≥ 2) is a subset of the previous
page's identity set, the pagination loop terminates after that page
*adding nothing* (`jobs` is returned unchanged), and — on any page —
every newly emitted job's `(title, company, location)` identity was
absent from the previous page's set; so two consecutive pages with
equal identity sets add no duplicate jobs. -/
theorem c7_duplicate_page_detection :
    ∀ (env : Nat → RozeePage) (mx page : Nat) (prev : List String)
      (jobs : List RawJob) (pf fuel : Nat) (cs : List RozeeCard),
      env page = .cards cs → cs.isEmpty = false → 2 ≤ page →
      jobs.length < mx →
      (∀ id ∈ (rozeeCards mx prev cs [] jobs).2, prev.contains id = true) →
      rozeeLoop env mx page prev jobs pf (fuel + 1) =
        some ⟨.ok jobs, true, pf + 1⟩ ∧
      (∀ j ∈ (rozeeCards mx prev cs [] jobs).1,
        j ∈ jobs ∨ prev.contains (rozeeId j.title j.company j.location) = false) := by
  intro env mx page prev jobs pf fuel cs hcs hne hpage hlen hsub
  constructor
  · rw [rozeeLoop, hcs]
    rw [if_neg (by omega)]
    dsimp only
    rw [hne]
    rw [if_neg (by simp)]
    rw [if_pos ⟨by omega, by rw [List.all_eq_true]; exact hsub⟩]
    rw [rozeeCards_no_new_of_subset mx prev cs [] jobs hsub]
  · exact rozeeCards_emitted_fresh mx prev cs [] jobs

/-- C7 witness: the hypotheses of `c7_duplicate_page_detection`
discharged at a concrete second page repeating the first page\'s only
identity. -/
theorem c7_duplicate_page_detection_witness :
    rozeeLoop
        (fun _ => .cards [.card "T" "C" "L" "2 years" "https://x" "d" none])
        10 2 [rozeeId "T" "C" "L"]
        [{ title := "T", company := "C", experience := "2 years",
           location := "L", applyLink := "https://x", description := "d",
           salary := "Not Listed", jobNature := "onsite" }] 1 5 =
      some ⟨.ok [{ title := "T", company := "C", experience := "2 years",
                   location := "L", applyLink := "https://x",
                   description := "d", salary := "Not Listed",
                   jobNature := "onsite" }], true, 2⟩ :=
  (c7_duplicate_page_detection
    (fun _ => .cards [.card "T" "C" "L" "2 years" "https://x" "d" none])
    10 2 [rozeeId "T" "C" "L"] _ 1 4 _ rfl rfl (by omega) (by simp)
    (by intro id hid; revert hid; simp [rozeeCards_card, rozeeCards_nil, insertId, rozeeId])).1

/-! ### C5: the batch contract -/

lemma scoreBatch_cons {α : Type} (env : Nat → Except String (Int × List String))
    (j : α) (rest : List α) (i : Nat) :
    scoreBatch env (j :: rest) i = analyzeSingle j (env i) :: scoreBatch env rest (i + 1) := rfl

lemma scoreBatch_enumFrom {α : Type} (env : Nat → Except String (Int × List String)) :
    ∀ (jobs : List α) (i : Nat),
      scoreBatch env jobs i =
        (List.enumFrom i jobs).map (fun p => analyzeSingle p.2 (env p.1)) := by
  intro jobs
  induction jobs with
  | nil => intro i; rfl
  | cons j rest ih => intro i; rw [scoreBatch_cons, List.enumFrom, List.map_cons, ih]

lemma batchLoop_of_running {α : Type} (env : Nat → Except String (Int × List String))
    (running : Nat → Bool) (hrun : ∀ b, running b = true) :
    ∀ (n : Nat) (jobs : List α), jobs.length ≤ n → ∀ (idx b : Nat),
      batchLoop env running (chunk5 jobs) idx b = scoreBatch env jobs idx := by
  intro n
  induction n with
  | zero =>
      intro jobs hlen idx b
      have : jobs = [] := List.eq_nil_of_length_eq_zero (by omega)
      subst this
      rfl
  | succ n ih =>
      intro jobs hlen idx b
      rcases jobs with _ | ⟨a, _ | ⟨a2, _ | ⟨a3, _ | ⟨a4, _ | ⟨a5, rest⟩⟩⟩⟩⟩
      · rfl
      · simp [chunk5, batchLoop, hrun b, scoreBatch]
      · simp [chunk5, batchLoop, hrun b, scoreBatch]
      · simp [chunk5, batchLoop, hrun b, scoreBatch]
      · simp [chunk5, batchLoop, hrun b, scoreBatch]
      · rw [show chunk5 (a :: a2 :: a3 :: a4 :: a5 :: rest) =
            [a, a2, a3, a4, a5] :: chunk5 rest from rfl]
        rw [batchLoop]
        rw [hrun b]
        rw [if_pos rfl]
        rw [show ([a, a2, a3, a4, a5] : List α).length = 5 from rfl]
        rw [ih rest (by simp at hlen; omega) (idx + 5) (b + 1)]
        simp [scoreBatch, Nat.add_assoc]

lemma filter_orderedInsert {α : Type} (x : Scored α) (s : Int) :
    ∀ l : List (Scored α),
      (List.orderedInsert scoreGE x l).filter (fun y => y.score = s) =
        if x.score = s then x :: l.filter (fun y => y.score = s)
        else l.filter (fun y => y.score = s) := by
  intro l
  induction l with
  | nil =>
      by_cases hx : x.score = s <;>
        simp [List.orderedInsert, List.filter, hx]
  | cons b t ih =>
      rw [List.orderedInsert]
      by_cases hr : scoreGE x b
      · rw [if_pos hr]
        by_cases hx : x.score = s <;> simp [List.filter_cons, hx]
      · rw [if_neg hr]
        have hlt : x.score < b.score := by
          simp only [scoreGE, not_le] at hr
          exact hr
        by_cases hx : x.score = s
        · have hbs : ¬(b.score = s) := by omega
          simp [List.filter_cons, hbs, hx, ih]
        · simp [List.filter_cons, hx, ih]

lemma filter_insertionSort {α : Type} (s : Int) :
    ∀ l : List (Scored α),
      (List.insertionSort scoreGE l).filter (fun y => y.score = s) =
        l.filter (fun y => y.score = s) := by
  intro l
  induction l with
  | nil => rfl
  | cons x t ih =>
      rw [List.insertionSort, filter_orderedInsert]
      by_cases hx : x.score = s <;> simp [List.filter_cons, hx, ih]

/-- C5 (confirmed): when the cooperative stop flag is never set,
`analyze_jobs_batch` returns a permutation of exactly one scored entry
per input job in input order — job `i` paired with its analysis
outcome, a failure becoming score 0, empty skills and an error marker
(`analyzeSingle`) rather than dropping the job — sorted by
`relevance_score` descending; and for every score value the entries
carrying it appear exactly in input (concatenation) order, i.e. the
sort is stable. -/
theorem c5_batch_sorted_stable (α : Type) :
    ∀ (jobs : List α) (env : Nat → Except String (Int × List String))
      (running : Nat → Bool), (∀ b, running b = true) →
      (analyze_jobs_batch jobs env running).Perm
        ((List.enumFrom 0 jobs).map (fun p => analyzeSingle p.2 (env p.1))) ∧
      List.Sorted scoreGE (analyze_jobs_batch jobs env running) ∧
      (∀ s : Int,
        (analyze_jobs_batch jobs env running).filter (fun y => y.score = s) =
          ((List.enumFrom 0 jobs).map
            (fun p => analyzeSingle p.2 (env p.1))).filter
            (fun y => y.score = s)) ∧
      (∀ (j : α) (e : String), analyzeSingle j (.error e) = ⟨j, 0, [], some e⟩) := by
  intro jobs env running hrun
  have hb : batchLoop env running (chunk5 jobs) 0 0 = scoreBatch env jobs 0 :=
    batchLoop_of_running env running hrun jobs.length jobs le_rfl 0 0
  have hs := scoreBatch_enumFrom env jobs 0
  refine ⟨?_, ?_, ?_, fun j e => rfl⟩
  · rw [analyze_jobs_batch, hb, hs]
    exact List.perm_insertionSort scoreGE _
  · rw [analyze_jobs_batch]
    exact List.sorted_insertionSort scoreGE _
  · intro s
    rw [analyze_jobs_batch, hb, filter_insertionSort, hs]

/-- A concrete analysis environment for the C5 witness: job 0 scores
10, job 1 fails, job 2 scores 10 (a tie with job 0). -/
def envW : Nat → Except String (Int × List String) :=
  fun i => if i = 0 then .ok (10, []) else if i = 1 then .error "boom" else .ok (10, ["a"])

/-- C5 witness: the stop-flag hypothesis of `c5_batch_sorted_stable`
discharged at a concrete three-job batch. -/
theorem c5_batch_sorted_stable_witness :
    (∀ b, (fun _ : Nat => true) b = true) ∧
    List.Sorted scoreGE (analyze_jobs_batch ["j1", "j2", "j3"] envW (fun _ => true)) ∧
    analyze_jobs_batch ["j1", "j2", "j3"] envW (fun _ => true) =
      [⟨"j1", 10, [], none⟩, ⟨"j3", 10, ["a"], none⟩, ⟨"j2", 0, [], some "boom"⟩] :=
  ⟨fun _ => rfl,
   (c5_batch_sorted_stable String ["j1", "j2", "j3"] envW (fun _ => true)
     (fun _ => rfl)).2.1,
   rfl⟩

/-! ### C8 and C9: failure semantics and pagination bounds -/

/-- Termination measure of the indeed loop state: `page` only grows,
except for the one-time first-page retry which flips `retried`. -/
def indeedMeasure (page : Nat) (retried : Bool) : Nat :=
  (3 - page) + (if retried then 0 else 3)

/-- Upper bound on the page fetches the indeed loop still performs
from a given state (5 from the initial state `(0, false)`). -/
def indeedFetchBound (page : Nat) (retried : Bool) : Nat :=
  if 3 ≤ page then 0 else (3 - page) + (if retried then 0 else 2)

lemma indeedCards_length (descEnv : String → String) (mx : Nat) :
    ∀ (cs : List IndeedCard) (jobs : List RawJob), jobs.length ≤ mx →
      (indeedCards descEnv mx cs jobs).length ≤ mx := by
  intro cs
  induction cs with
  | nil => intro jobs h; simpa [indeedCards] using h
  | cons c rest ih =>
      intro jobs h
      simp only [indeedCards]
      split
      · exact h
      · rename_i hmx
        cases c with
        | bad => exact ih jobs h
        | card title company location salary link =>
            cases title with
            | none => exact ih jobs h
            | some t =>
                cases company with
                | none => exact ih jobs h
                | some co =>
                    dsimp only
                    split
                    · refine ih _ ?_
                      simp only [List.length_append, List.length_singleton]
                      omega
                    · exact ih jobs h

lemma indeedLoop_props (env : Nat → IndeedPage) (descEnv : String → String)
    (mx : Nat) :
    ∀ (fuel : Nat) (jobs : List RawJob) (page : Nat) (retried : Bool)
      (fetched : List Nat),
      indeedMeasure page retried < fuel →
      ∃ jobs' f',
        indeedLoop env descEnv mx jobs page retried fetched fuel = some (jobs', f') ∧
        f'.length ≤ fetched.length + indeedFetchBound page retried ∧
        (∀ p ∈ f', p ∈ fetched ∨ p ≤ 2) ∧
        (jobs.length ≤ mx → jobs'.length ≤ mx) := by
  intro fuel
  induction fuel with
  | zero =>
      intro jobs page retried fetched hm
      exact absurd hm (by omega)
  | succ n ih =>
      intro jobs page retried fetched hm
      rw [indeedLoop]
      by_cases hex : mx ≤ jobs.length ∨ 3 ≤ page
      · rw [if_pos hex]
        exact ⟨jobs, fetched, rfl, by omega, fun p hp => Or.inl hp, fun h => h⟩
      · rw [if_neg hex]
        push_neg at hex
        obtain ⟨hjobs, hpage⟩ := hex
        cases hen : env page with
        | err =>
            refine ⟨jobs, fetched ++ [page], rfl, ?_, ?_, fun h => h⟩
            · simp only [List.length_append, List.length_singleton]
              simp only [indeedFetchBound]
              split_ifs <;> omega
            · intro p hp
              rcases List.mem_append.mp hp with hp | hp
              · exact Or.inl hp
              · simp only [List.mem_singleton] at hp
                omega
        | cards cs =>
            dsimp only
            by_cases hretry : page = 1 ∧ cs.isEmpty = false ∧ retried = false
            · rw [if_pos hretry]
              obtain ⟨hp1, _, hret⟩ := hretry
              subst hp1
              subst hret
              obtain ⟨jobs', f', heq, hlen, hmem, hcap⟩ :=
                ih jobs 0 true (fetched ++ [1]) (by simp [indeedMeasure] at hm ⊢; omega)
              refine ⟨jobs', f', heq, ?_, ?_, hcap⟩
              · simp only [List.length_append, List.length_singleton] at hlen
                simp [indeedFetchBound] at hlen ⊢
                omega
              · intro p hp
                rcases hmem p hp with hp2 | hp2
                · rcases List.mem_append.mp hp2 with hp3 | hp3
                  · exact Or.inl hp3
                  · simp only [List.mem_singleton] at hp3
                    omega
                · exact Or.inr hp2
            · rw [if_neg hretry]
              by_cases hdone : mx ≤ (indeedCards descEnv mx cs jobs).length
              · rw [if_pos hdone]
                refine ⟨_, fetched ++ [page], rfl, ?_, ?_, fun h => indeedCards_length descEnv mx cs jobs h⟩
                · simp only [List.length_append, List.length_singleton]
                  simp only [indeedFetchBound]
                  split_ifs <;> omega
                · intro p hp
                  rcases List.mem_append.mp hp with hp | hp
                  · exact Or.inl hp
                  · simp only [List.mem_singleton] at hp
                    omega
              · rw [if_neg hdone]
                obtain ⟨jobs', f', heq, hlen, hmem, hcap⟩ :=
                  ih (indeedCards descEnv mx cs jobs) (page + 1) retried
                    (fetched ++ [page])
                    (by simp [indeedMeasure] at hm ⊢; omega)
                refine ⟨jobs', f', heq, ?_, ?_,
                  fun h => hcap (indeedCards_length descEnv mx cs jobs h)⟩
                · simp only [List.length_append, List.length_singleton] at hlen
                  simp only [indeedFetchBound] at hlen ⊢
                  split_ifs at hlen ⊢ <;> omega
                · intro p hp
                  rcases hmem p hp with hp2 | hp2
                  · rcases List.mem_append.mp hp2 with hp3 | hp3
                    · exact Or.inl hp3
                    · simp only [List.mem_singleton] at hp3
                      omega
                  · exact Or.inr hp2

lemma rozeeLoop_browserClosed (env : Nat → RozeePage) (mx : Nat) :
    ∀ (fuel page pf : Nat) (prev : List String) (jobs : List RawJob)
      (r : RozeeResult),
      rozeeLoop env mx page prev jobs pf fuel = some r →
      r.browserClosed = true := by
  intro fuel
  induction fuel with
  | zero => intro page pf prev jobs r h; simp [rozeeLoop] at h
  | succ n ih =>
      intro page pf prev jobs r h
      rw [rozeeLoop] at h
      split at h
      · cases h; rfl
      · split at h
        · cases h; rfl
        · cases h; rfl
        · cases h; rfl
        · split at h
          · cases h; rfl
          · split at h
            · cases h; rfl
            · exact ih _ _ _ _ r h

/-- C8 counterexample: an exception while fetching a rozee page is
caught by no handler inside `scrape_jobs` (only `TimeoutException` and
`KeyboardInterrupt` are), so the call raises to its caller — `.error`
— instead of returning the collected sequence. -/
theorem c8_counterexample :
    rozeeLoop (fun _ => .fetchError) 10 1 [] [] 0 5 =
      some ⟨.error (), true, 1⟩ := rfl

/-- C8 (corrected): per-card exceptions skip only the card everywhere,
and the indeed adapter never raises (page-level errors abort pagination
returning the jobs collected; start-up errors return `[]`).  But the
claim fails in two ways: (1) in the rozee adapter only the
listing-wait timeout and `KeyboardInterrupt` return the collected
jobs — any other exception while fetching a page propagates to the
caller (see `c8_counterexample`); (2) teardown is asymmetric: rozee's
`finally:` quits the browser on every exit path, while indeed's
`scrape_jobs` never stops its browser at all. -/
theorem c8_fail_soft :
    (∀ (env : Nat → RozeePage) (mx : Nat) (fuel page pf : Nat)
       (prev : List String) (jobs : List RawJob) (r : RozeeResult),
      rozeeLoop env mx page prev jobs pf fuel = some r →
      r.browserClosed = true) ∧
    (∀ (env : Nat → RozeePage) (mx page : Nat) (prev : List String)
       (jobs : List RawJob) (pf fuel : Nat),
      jobs.length < mx → env page = .timeout →
      rozeeLoop env mx page prev jobs pf (fuel + 1) =
        some ⟨.ok jobs, true, pf + 1⟩) ∧
    (∀ (env : Nat → RozeePage) (mx page : Nat) (prev : List String)
       (jobs : List RawJob) (pf fuel : Nat),
      jobs.length < mx → env page = .interrupt →
      rozeeLoop env mx page prev jobs pf (fuel + 1) =
        some ⟨.ok jobs, true, pf + 1⟩) ∧
    (∀ (env : Nat → IndeedPage) (descEnv : String → String) (startOk : Bool)
       (mx : Nat), ∃ r, indeedScrape env descEnv startOk mx 7 = some r ∧
         r.browserClosed = false) := by
  refine ⟨rozeeLoop_browserClosed, ?_, ?_, ?_⟩
  · intro env mx page prev jobs pf fuel hlen henv
    rw [rozeeLoop, henv, if_neg (by omega)]
  · intro env mx page prev jobs pf fuel hlen henv
    rw [rozeeLoop, henv, if_neg (by omega)]
  · intro env descEnv startOk mx
    rw [indeedScrape]
    by_cases hso : startOk = false
    · rw [if_pos hso]
      exact ⟨⟨[], [], false⟩, rfl, rfl⟩
    · rw [if_neg hso]
      obtain ⟨jobs', f', heq, -, -, -⟩ :=
        indeedLoop_props env descEnv mx 7 [] 0 false []
          (by simp [indeedMeasure])
      exact ⟨⟨jobs', f', false⟩, by rw [heq]; rfl, rfl⟩

/-- C8 witness: the hypotheses of `c8_fail_soft` discharged at
concrete states. -/
theorem c8_fail_soft_witness :
    rozeeLoop (fun _ => .timeout) 10 3 [] [devJob] 2 4 =
      some ⟨.ok [devJob], true, 3⟩ ∧
    rozeeLoop (fun _ => .interrupt) 10 3 [] [devJob] 2 4 =
      some ⟨.ok [devJob], true, 3⟩ ∧
    (⟨Except.ok ([] : List RawJob), true, 1⟩ : RozeeResult).browserClosed = true := by
  refine ⟨?_, ?_, ?_⟩
  · exact c8_fail_soft.2.1 (fun _ => .timeout) 10 3 [] [devJob] 2 3
      (by simp) rfl
  · exact c8_fail_soft.2.2.1 (fun _ => .interrupt) 10 3 [] [devJob] 2 3
      (by simp) rfl
  · exact c8_fail_soft.1 (fun _ => .timeout) 10 1 1 0 [] [] _ rfl

/-! The rozee pagination loop has no page cap: an environment that
presents one fresh identity per page whose card fails after the
identity is recorded keeps the loop running forever — nothing is ever
emitted and no page repeats the previous page's identity set. -/

def rozeeEnvFresh : Nat → RozeePage :=
  fun p => .cards [.failLate (if p % 2 = 0 then "a" else "b") "c" "l"]

def rozeeEnvNew : Nat → RozeePage :=
  fun p => .cards [.card (if p % 2 = 0 then "a" else "b") "c" "l" "e" "al" "d" none]

def freshId (p : Nat) : String :=
  rozeeId (if p % 2 = 0 then "a" else "b") "c" "l"

def pagesOf : Option RozeeResult → Nat
  | some r => r.pagesFetched
  | none => 0

lemma rozeeEnvFresh_none :
    ∀ (fuel page pf : Nat), 1 ≤ page →
      rozeeLoop rozeeEnvFresh 10 (page + 1) [freshId page] [] pf fuel = none := by
  intro fuel
  induction fuel with
  | zero => intro page pf hp; rfl
  | succ n ih =>
      intro page pf hp
      rw [rozeeLoop]
      rw [if_neg (by simp)]
      rw [show rozeeEnvFresh (page + 1) =
        .cards [.failLate (if (page + 1) % 2 = 0 then "a" else "b") "c" "l"]
        from rfl]
      dsimp only
      rw [if_neg (by simp)]
      rw [if_neg ?hcond]
      case hcond =>
        intro hand
        have hall := hand.2
        rw [List.all_eq_true] at hall
        have hmem := hall (freshId (page + 1))
          (by
            rw [rozeeCards_failLate, if_neg (by simp), rozeeCards_nil]
            simp [insertId, freshId])
        rcases Nat.mod_two_eq_zero_or_one page with hpar | hpar
        · have hpar1 : (page + 1) % 2 = 1 := by omega
          simp [freshId, rozeeId, hpar, hpar1, List.contains] at hmem
        · have hpar1 : (page + 1) % 2 = 0 := by omega
          simp [freshId, rozeeId, hpar, hpar1, List.contains] at hmem
      rw [show (rozeeCards 10 [freshId page]
          [.failLate (if (page + 1) % 2 = 0 then "a" else "b") "c" "l"] [] []).2 =
          [freshId (page + 1)] by
        rw [rozeeCards_failLate, if_neg (by simp), rozeeCards_nil]
        simp [insertId, freshId]]
      rw [show (rozeeCards 10 [freshId page]
          [.failLate (if (page + 1) % 2 = 0 then "a" else "b") "c" "l"] [] []).1 =
          [] by
        rw [rozeeCards_failLate, if_neg (by simp), rozeeCards_nil]]
      exact ih (page + 1) (pf + 1) (by omega)

lemma rozeeCards_jobs_length (mx : Nat) (prev : List String) :
    ∀ (cs : List RozeeCard) (cur : List String) (jobs : List RawJob),
      jobs.length ≤ mx → (rozeeCards mx prev cs cur jobs).1.length ≤ mx := by
  intro cs
  induction cs with
  | nil => intro cur jobs h; exact h
  | cons c rest ih =>
      intro cur jobs h
      by_cases hmx : mx ≤ jobs.length
      · cases c with
        | failEarly => rw [rozeeCards_failEarly, if_pos hmx]; exact h
        | failLate t co l => rw [rozeeCards_failLate, if_pos hmx]; exact h
        | card t co l e al d sal => rw [rozeeCards_card, if_pos hmx]; exact h
      · cases c with
        | failEarly => rw [rozeeCards_failEarly, if_neg hmx]; exact ih cur jobs h
        | failLate t co l => rw [rozeeCards_failLate, if_neg hmx]; exact ih _ jobs h
        | card t co l e al d sal =>
            rw [rozeeCards_card, if_neg hmx]
            by_cases hmem : prev.contains (rozeeId t co l)
            · rw [if_pos hmem]; exact ih _ jobs h
            · rw [if_neg hmem]
              refine ih _ _ ?_
              simp only [List.length_append, List.length_singleton]
              omega

lemma rozeeLoop_ok_length (env : Nat → RozeePage) (mx : Nat) :
    ∀ (fuel page pf : Nat) (prev : List String) (jobs : List RawJob)
      (r : RozeeResult) (l : List RawJob),
      jobs.length ≤ mx →
      rozeeLoop env mx page prev jobs pf fuel = some r →
      r.outcome = .ok l → l.length ≤ mx := by
  intro fuel
  induction fuel with
  | zero => intro page pf prev jobs r l hj h ho; simp [rozeeLoop] at h
  | succ n ih =>
      intro page pf prev jobs r l hj h ho
      rw [rozeeLoop] at h
      split at h
      · cases h
        simp only at ho
        cases ho
        exact hj
      · split at h
        · cases h; simp at ho
        · cases h
          simp only at ho
          cases ho
          exact hj
        · cases h
          simp only at ho
          cases ho
          exact hj
        · split at h
          · cases h
            simp only at ho
            cases ho
            exact hj
          · split at h
            · cases h
              simp only at ho
              cases ho
              exact rozeeCards_jobs_length mx prev _ [] jobs hj
            · exact ih _ _ _ _ r l
                (rozeeCards_jobs_length mx prev _ [] jobs hj) h ho

/-- C9 counterexample: the rozee pagination loop is not bounded by any
fixed page count — with one fresh failing identity per page it is
still running after 40 iterations at the default `max_jobs = 10`, and
with one fresh good job per page and `max_jobs = 25` it fetches 25
pages before stopping, far above a fixed variant cap such as indeed's
3. -/
theorem c9_counterexample :
    rozeeScrape rozeeEnvFresh 10 40 = none ∧
    pagesOf (rozeeScrape rozeeEnvNew 25 40) = 25 ∧
    ¬(25 ≤ 3) := by
  refine ⟨by rfl, by rfl, by omega⟩

/-- C9 (corrected): the indeed loop is bounded — it terminates for
every environment within 7 iterations, fetches at most 5 pages, all
with numbers 0-2 (3 distinct pages, the first two at most twice thanks
to the one-time retry), and stops emitting at `maxResults` — and the
rozee loop also stops emitting at `maxResults`; but the rozee loop has
*no* fixed page cap and need not terminate at all: under
`rozeeEnvFresh` it runs forever (see also `c9_counterexample`). -/
theorem c9_pagination_bounds :
    (∀ (env : Nat → IndeedPage) (descEnv : String → String) (mx : Nat),
      ∃ jobs' f', indeedLoop env descEnv mx [] 0 false [] 7 = some (jobs', f') ∧
        f'.length ≤ 5 ∧ (∀ p ∈ f', p ≤ 2) ∧ jobs'.length ≤ mx) ∧
    (∀ (env : Nat → RozeePage) (mx : Nat) (fuel page pf : Nat)
       (prev : List String) (jobs : List RawJob) (r : RozeeResult)
       (l : List RawJob),
      jobs.length ≤ mx →
      rozeeLoop env mx page prev jobs pf fuel = some r →
      r.outcome = .ok l → l.length ≤ mx) ∧
    (∀ fuel : Nat, rozeeScrape rozeeEnvFresh 10 fuel = none) := by
  refine ⟨?_, ?_, ?_⟩
  · intro env descEnv mx
    obtain ⟨jobs', f', heq, hlen, hmem, hcap⟩ :=
      indeedLoop_props env descEnv mx 7 [] 0 false [] (by simp [indeedMeasure])
    refine ⟨jobs', f', heq, ?_, ?_, hcap (by simp)⟩
    · simpa [indeedFetchBound] using hlen
    · intro p hp
      rcases hmem p hp with hp2 | hp2
      · simp at hp2
      · exact hp2
  · intro env mx fuel page pf prev jobs r l hj h ho
    exact rozeeLoop_ok_length env mx fuel page pf prev jobs r l hj h ho
  · intro fuel
    cases fuel with
    | zero => rfl
    | succ n =>
        rw [rozeeScrape, rozeeLoop]
        rw [if_neg (by simp)]
        rw [show rozeeEnvFresh 1 = .cards [.failLate "b" "c" "l"] from rfl]
        dsimp only
        rw [if_neg (by simp)]
        rw [if_neg (by omega)]
        rw [show (rozeeCards 10 [] [.failLate "b" "c" "l"] [] []).2 =
            [freshId 1] from rfl]
        rw [show (rozeeCards 10 [] [.failLate "b" "c" "l"] [] []).1 =
            [] from rfl]
        exact rozeeEnvFresh_none n 1 1 le_rfl

/-- C9 witness: the hypotheses of `c9_pagination_bounds` discharged at
a concrete terminating rozee run. -/
theorem c9_pagination_bounds_witness :
    rozeeLoop (fun _ => .timeout) 3 1 [] [devJob, devJob] 0 2 =
      some ⟨.ok [devJob, devJob], true, 1⟩ ∧
    ([devJob, devJob] : List RawJob).length ≤ 3 := by
  constructor
  · rfl
  · exact c9_pagination_bounds.2.1 (fun _ => .timeout) 3 2 1 0 []
      [devJob, devJob] ⟨.ok [devJob, devJob], true, 1⟩ [devJob, devJob]
      (by simp) rfl rfl

end JobScrapper
